import Mathlib

/-!
Verification of the price-history aggregation and charting pipeline of the
Stride repository (frontend/src/utils/helpers.ts), against its specification.

Modelling conventions for the shallow embedding:
* JavaScript numbers are modelled as exact rationals.  The claims under
  verification are exact arithmetic identities (mean, min, max, differences),
  which hold exactly over the rationals.  The one claim that hinges on the
  special IEEE values (division by zero producing Infinity or NaN) is settled
  over the dedicated type JSNum below, whose special-value propagation follows
  the IEEE rules exactly; those rules involve no rounding.
* Timestamps (observed_at) are modelled as epoch milliseconds (Int), the value
  of Date.prototype.getTime.  setUTCHours(0,0,0,0) floors an epoch-millisecond
  value to the previous multiple of 86400000, because Unix time counts exactly
  86400000 ms per UTC day; Int.fdiv is the floor division that realises it for
  negative epoch values as well.  The normalized ISO string key of the Map in
  transformPriceData is in bijection with that floored millisecond value, so
  the key is modelled as the Int directly.
* The JavaScript Map keeps insertion order and Map.set overwrites the value of
  an existing key in place; it is modelled by the association list operations
  mapSet / mapLookup below.  Plain-object property assignment
  (dataPoint[key] = price) has the same semantics and reuses mapSet.
* Array.prototype.sort with comparator (a, b) => a.timestamp - b.timestamp is
  modelled by insertion sort under rowLE; the bucket timestamps being pairwise
  distinct, every correct sort yields the same list.
-/

namespace Stride

/-- PricePoint from utils/types.ts: one observed price for a sneaker.
timestamp is epoch milliseconds of observed_at. -/
structure PricePoint where
  timestamp : Int
  price : ℚ
  sneaker_id : Int
deriving DecidableEq

/-- Sneaker from utils/types.ts (the fields the pipeline reads). -/
structure Sneaker where
  sneaker_id : Int
  name : String
  sku : String
  release_date : Option String
  colorway : Option String
  available_sizes : Option String
  price : ℚ
  ratings : Option ℚ
deriving DecidableEq

/-- ChartData from utils/types.ts: the fixed timestamp field plus the
dynamic series-label keys, modelled as an association list. -/
structure ChartData where
  timestamp : Int
  entries : List (String × ℚ)
deriving DecidableEq

/-- SneakerStats from utils/types.ts. -/
structure SneakerStats where
  sneaker_id : Int
  name : String
  sku : String
  current_price : ℚ
  retail_price : ℚ
  price_change : ℚ
  price_change_percent : ℚ
  min_price : ℚ
  max_price : ℚ
  avg_price : ℚ
  release_date : String
  available_sizes : String
  ratings : ℚ
deriving DecidableEq

/-- Milliseconds per UTC day. -/
def msPerDay : Int := 86400000

/-- helpers.ts, normalizeTimestamp (inside transformPriceData):
new Date(t).setUTCHours(0,0,0,0) floors an epoch-millisecond instant to the
start of its UTC day. -/
def normalizeTimestamp (t : Int) : Int :=
  msPerDay * (Int.fdiv t msPerDay)

/-- JavaScript Map.set / object property assignment on an association list:
overwrite in place if the key is present, append otherwise. -/
def mapSet {α β : Type} [DecidableEq α] : List (α × β) → α → β → List (α × β)
  | [], k, v => [(k, v)]
  | (k₀, v₀) :: rest, k, v =>
    if k₀ = k then (k₀, v) :: rest else (k₀, v₀) :: mapSet rest k v

/-- JavaScript Map.get on an association list. -/
def mapLookup {α β : Type} [DecidableEq α] : List (α × β) → α → Option β
  | [], _ => none
  | (k₀, v₀) :: rest, k => if k₀ = k then some v₀ else mapLookup rest k

/-- The grouped structure of transformPriceData:
Map from normalized day to (Map from sneaker_id to price), in insertion
order. -/
abbrev Grouped := List (Int × List (Int × ℚ))

/-- One iteration of the grouping loop of transformPriceData (lines 55-61):
ensure the bucket of the day exists, then Map.set the price under the
sneaker id. -/
def groupInsert : Grouped → Int → Int → ℚ → Grouped
  | [], d, sid, pr => [(d, [(sid, pr)])]
  | (d₀, m) :: rest, d, sid, pr =>
    if d₀ = d then (d₀, mapSet m sid pr) :: rest
    else (d₀, m) :: groupInsert rest d sid pr

/-- The body of the forEach loop at helpers.ts lines 55-61. -/
def groupStep (g : Grouped) (p : PricePoint) : Grouped :=
  groupInsert g (normalizeTimestamp p.timestamp) p.sneaker_id p.price

/-- The grouping pass of transformPriceData over all price points. -/
def groupPoints (pts : List PricePoint) : Grouped :=
  pts.foldl groupStep []

/-- JavaScript template-literal rendering of a possibly-undefined string:
an absent value prints as the literal string "undefined". -/
def jsUndefinedString : Option String → String
  | some s => s
  | none => "undefined"

/-- The series label of a sneaker, as built at helpers.ts line 75 and line
103/128: name, a dash, and the template-literal rendering of colorway. -/
def seriesKey (s : Sneaker) : String :=
  s.name ++ " - " ++ jsUndefinedString s.colorway

/-- Row building for one bucket (helpers.ts lines 66-81): for each
(sneaker_id, price) of the bucket in insertion order, resolve the sneaker in
the supplied list; unknown ids are skipped, known ones assign the price under
the series label. -/
def buildRow (ss : List Sneaker) (d : Int) (m : List (Int × ℚ)) : ChartData :=
  { timestamp := d
    entries :=
      m.foldl
        (fun es kv =>
          match ss.find? (fun s => s.sneaker_id == kv.1) with
          | some s => mapSet es (seriesKey s) kv.2
          | none => es)
        [] }

/-- Comparator of the final sort (helpers.ts lines 84-86). -/
def rowLE (a b : ChartData) : Prop := a.timestamp ≤ b.timestamp

instance : DecidableRel rowLE := fun a b => Int.decLe a.timestamp b.timestamp

instance : IsTotal ChartData rowLE := ⟨fun a b => Int.le_total a.timestamp b.timestamp⟩

instance : IsTrans ChartData rowLE := ⟨fun _ _ _ => Int.le_trans⟩

/-- helpers.ts, transformPriceData: group the price points by UTC day and
sneaker id, build one chart row per day, and sort the rows chronologically.
The spec calls this function buildChartRows. -/
def transformPriceData (pts : List PricePoint) (ss : List Sneaker) : List ChartData :=
  if pts.length = 0 ∨ ss.length = 0 then []
  else
    List.insertionSort rowLE
      ((groupPoints pts).map (fun dm => buildRow ss dm.1 dm.2))

/-- JavaScript || fallback on a possibly-undefined string: the empty string
is falsy and also falls back. -/
def jsOrString (o : Option String) (d : String) : String :=
  match o with
  | some s => if s = "" then d else s
  | none => d

/-- JavaScript || fallback on a possibly-undefined number: 0 is falsy. -/
def jsOrNum (o : Option ℚ) (d : ℚ) : ℚ :=
  match o with
  | some v => if v = 0 then d else v
  | none => d

/-- helpers.ts, calculatePriceChange, over exact rationals. -/
def calculatePriceChange (oldPrice newPrice : ℚ) : ℚ :=
  (newPrice - oldPrice) / oldPrice * 100

/-- helpers.ts, calculateStats: per-sneaker summary statistics.  The spec
calls this function computeStats. -/
def calculateStats (s : Sneaker) (pricePoints : List PricePoint) : SneakerStats :=
  match pricePoints.filter (fun p => p.sneaker_id == s.sneaker_id) with
  | [] =>
    { sneaker_id := s.sneaker_id
      name := seriesKey s
      sku := s.sku
      current_price := s.price
      retail_price := s.price
      price_change := 0
      price_change_percent := 0
      min_price := s.price
      max_price := s.price
      avg_price := s.price
      release_date := jsOrString s.release_date "Unknown"
      available_sizes := jsOrString s.available_sizes "N/A"
      ratings := jsOrNum s.ratings 0 }
  | q :: qs =>
    let prices := (q :: qs).map (fun p => p.price)
    let currentPrice := prices.getLastD 0
    let minPrice := (qs.map (fun p => p.price)).foldl min q.price
    let maxPrice := (qs.map (fun p => p.price)).foldl max q.price
    let avgPrice := prices.foldl (· + ·) 0 / (prices.length : ℚ)
    { sneaker_id := s.sneaker_id
      name := seriesKey s
      sku := s.sku
      current_price := currentPrice
      retail_price := s.price
      price_change := currentPrice - s.price
      price_change_percent := calculatePriceChange s.price currentPrice
      min_price := minPrice
      max_price := maxPrice
      avg_price := avgPrice
      release_date := jsOrString s.release_date "Unknown"
      available_sizes := jsOrString s.available_sizes "N/A"
      ratings := jsOrNum s.ratings 0 }

/-- IEEE-754 double values as far as the special-value propagation of
calculatePriceChange is concerned: finite values (kept exact as rationals,
since the claim at stake involves no rounding), the two infinities and NaN.
The sign of zero is not modelled; the inputs of interest are +0 and positive
finite values, on which the rules below agree with IEEE-754. -/
inductive JSNum where
  | num : ℚ → JSNum
  | posInf : JSNum
  | negInf : JSNum
  | nan : JSNum
deriving DecidableEq

/-- IEEE subtraction on JSNum. -/
def jsSub : JSNum → JSNum → JSNum
  | .num a, .num b => .num (a - b)
  | .num _, .posInf => .negInf
  | .num _, .negInf => .posInf
  | .posInf, .num _ => .posInf
  | .posInf, .negInf => .posInf
  | .posInf, .posInf => .nan
  | .negInf, .num _ => .negInf
  | .negInf, .posInf => .negInf
  | .negInf, .negInf => .nan
  | .nan, _ => .nan
  | _, .nan => .nan

/-- IEEE division on JSNum (zero divisor taken as +0). -/
def jsDiv : JSNum → JSNum → JSNum
  | .num a, .num b =>
    if b ≠ 0 then .num (a / b)
    else if a = 0 then .nan
    else if 0 < a then .posInf
    else .negInf
  | .num _, .posInf => .num 0
  | .num _, .negInf => .num 0
  | .posInf, .num b => if 0 ≤ b then .posInf else .negInf
  | .negInf, .num b => if 0 ≤ b then .negInf else .posInf
  | .posInf, .posInf => .nan
  | .posInf, .negInf => .nan
  | .negInf, .posInf => .nan
  | .negInf, .negInf => .nan
  | .nan, _ => .nan
  | _, .nan => .nan

/-- IEEE multiplication on JSNum. -/
def jsMul : JSNum → JSNum → JSNum
  | .num a, .num b => .num (a * b)
  | .posInf, .num b => if b = 0 then .nan else if 0 < b then .posInf else .negInf
  | .num a, .posInf => if a = 0 then .nan else if 0 < a then .posInf else .negInf
  | .negInf, .num b => if b = 0 then .nan else if 0 < b then .negInf else .posInf
  | .num a, .negInf => if a = 0 then .nan else if 0 < a then .negInf else .posInf
  | .posInf, .posInf => .posInf
  | .posInf, .negInf => .negInf
  | .negInf, .posInf => .negInf
  | .negInf, .negInf => .posInf
  | .nan, _ => .nan
  | _, .nan => .nan

/-- helpers.ts, calculatePriceChange, over IEEE special values: the very
expression ((newPrice - oldPrice) / oldPrice) * 100 evaluated with the
floating-point rules. -/
def calculatePriceChangeJS (oldPrice newPrice : JSNum) : JSNum :=
  jsMul (jsDiv (jsSub newPrice oldPrice) oldPrice) (.num 100)

/-! Concrete values used by witnesses and counterexamples. -/

/-- A sneaker with id 1 and no optional fields. -/
def snA : Sneaker := ⟨1, "A", "SKU-A", none, none, none, 100, none⟩

/-- A sneaker with id 2. -/
def snB : Sneaker := ⟨2, "B", "SKU-B", none, none, none, 120, none⟩

/-! Association-list lemmas for the JavaScript Map model. -/

theorem mapLookup_mapSet {α β : Type} [DecidableEq α] (m : List (α × β)) (k k' : α) (v : β) :
    mapLookup (mapSet m k v) k' = if k = k' then some v else mapLookup m k' := by
  induction m with
  | nil =>
    simp only [mapSet, mapLookup]
  | cons kv rest ih =>
    obtain ⟨k₀, v₀⟩ := kv
    by_cases h : k₀ = k
    · subst h
      by_cases h' : k₀ = k' <;> simp [mapSet, mapLookup, h']
    · by_cases h' : k₀ = k'
      · have hkk : ¬k = k' := by
          rw [← h']
          exact fun hk => h hk.symm
        have hkk2 : ¬k' = k := fun hk => hkk hk.symm
        simp [mapSet, mapLookup, h, h', hkk, hkk2]
      · simp [mapSet, mapLookup, h, h', ih]

theorem mem_mapSet {α β : Type} [DecidableEq α] (m : List (α × β)) (k : α) (v : β)
    (kv : α × β) (hkv : kv ∈ mapSet m k v) : kv ∈ m ∨ kv.1 = k := by
  induction m with
  | nil =>
    simp only [mapSet] at hkv
    rw [List.mem_singleton.mp hkv]
    exact Or.inr rfl
  | cons kv₀ rest ih =>
    obtain ⟨k₀, v₀⟩ := kv₀
    by_cases h : k₀ = k
    · rw [mapSet, if_pos h] at hkv
      rcases List.mem_cons.mp hkv with h1 | h1
      · refine Or.inr ?_
        rw [h1]
        exact h
      · exact Or.inl (List.mem_cons_of_mem _ h1)
    · rw [mapSet, if_neg h] at hkv
      rcases List.mem_cons.mp hkv with h1 | h1
      · refine Or.inl ?_
        rw [h1]
        exact List.mem_cons_self _ _
      · rcases ih h1 with h2 | h2
        · exact Or.inl (List.mem_cons_of_mem _ h2)
        · exact Or.inr h2

/-! Lookup into the grouped day-to-series map, and the last-write-wins law. -/

/-- The price recorded in the grouped structure for a sneaker id on a day. -/
def bucketPrice (g : Grouped) (d sid : Int) : Option ℚ :=
  (mapLookup g d).bind (fun m => mapLookup m sid)

/-- The specification-side reading of last write wins: the price of the
sample that occurs last in input order among the samples of the given
sneaker falling on the given UTC day. -/
def lastSamplePrice (pts : List PricePoint) (d sid : Int) : Option ℚ :=
  ((pts.filter fun p => normalizeTimestamp p.timestamp == d && p.sneaker_id == sid).getLast?).map
    (fun p => p.price)

theorem bucketPrice_cons (d₀ : Int) (m : List (Int × ℚ)) (rest : Grouped) (d sid : Int) :
    bucketPrice ((d₀, m) :: rest) d sid =
      if d₀ = d then mapLookup m sid else bucketPrice rest d sid := by
  by_cases h : d₀ = d <;> simp [bucketPrice, mapLookup, h]

theorem bucketPrice_groupInsert (g : Grouped) (d' k' : Int) (v : ℚ) (d sid : Int) :
    bucketPrice (groupInsert g d' k' v) d sid =
      if d' = d ∧ k' = sid then some v else bucketPrice g d sid := by
  induction g with
  | nil =>
    rw [groupInsert, bucketPrice_cons]
    by_cases h1 : d' = d
    · by_cases h2 : k' = sid <;>
        simp [bucketPrice, mapLookup, h1, h2]
    · simp [bucketPrice, mapLookup, h1]
  | cons dm rest ih =>
    obtain ⟨d₀, m⟩ := dm
    by_cases hd : d₀ = d'
    · rw [groupInsert, if_pos hd, bucketPrice_cons, bucketPrice_cons]
      by_cases h1 : d₀ = d
      · have hd' : d' = d := hd ▸ h1
        rw [if_pos h1, if_pos h1, mapLookup_mapSet]
        by_cases h2 : k' = sid <;> simp [h2, hd']
      · have hd' : ¬(d' = d ∧ k' = sid) := fun hand => h1 (hd ▸ hand.1)
        rw [if_neg h1, if_neg h1, if_neg hd']
    · rw [groupInsert, if_neg hd, bucketPrice_cons, bucketPrice_cons]
      by_cases h1 : d₀ = d
      · have hd' : ¬(d' = d ∧ k' = sid) := fun hand => hd (h1 ▸ hand.1.symm)
        rw [if_pos h1, if_pos h1, if_neg hd']
      · rw [if_neg h1, if_neg h1, ih]

theorem lastSamplePrice_nil (d sid : Int) : lastSamplePrice [] d sid = none := rfl

theorem lastSamplePrice_cons (p : PricePoint) (pts : List PricePoint) (d sid : Int) :
    lastSamplePrice (p :: pts) d sid =
      Option.or (lastSamplePrice pts d sid)
        (if normalizeTimestamp p.timestamp = d ∧ p.sneaker_id = sid
         then some p.price else none) := by
  unfold lastSamplePrice
  rw [List.filter_cons]
  by_cases h : normalizeTimestamp p.timestamp = d ∧ p.sneaker_id = sid
  · have hb : (normalizeTimestamp p.timestamp == d && p.sneaker_id == sid) = true := by
      simp [h.1, h.2]
    rw [hb, if_pos rfl, if_pos h]
    cases hf : pts.filter fun q => normalizeTimestamp q.timestamp == d && q.sneaker_id == sid with
    | nil => simp
    | cons q qs =>
      rw [List.getLast?_cons_cons]
      have hsome : ((q :: qs).getLast?).isSome := by simp
      obtain ⟨x, hx⟩ := Option.isSome_iff_exists.mp hsome
      rw [hx]
      rfl
  · have hb : (normalizeTimestamp p.timestamp == d && p.sneaker_id == sid) = false := by
      rcases not_and_or.mp h with h1 | h1 <;> simp [h1]
    rw [hb, if_neg h, Option.or_none]
    simp

theorem bucketPrice_foldl (pts : List PricePoint) :
    ∀ (g : Grouped) (d sid : Int),
      bucketPrice (pts.foldl groupStep g) d sid =
        Option.or (lastSamplePrice pts d sid) (bucketPrice g d sid) := by
  induction pts with
  | nil =>
    intro g d sid
    rw [List.foldl_nil, lastSamplePrice_nil]
    rfl
  | cons p rest ih =>
    intro g d sid
    rw [List.foldl_cons, ih, lastSamplePrice_cons, Option.or_assoc]
    congr 1
    rw [groupStep, bucketPrice_groupInsert]
    by_cases h : normalizeTimestamp p.timestamp = d ∧ p.sneaker_id = sid
    · rw [if_pos h, if_pos h]
      rfl
    · rw [if_neg h, if_neg h]
      rfl

/-! Uniqueness of the day keys of the grouped structure. -/

theorem keys_groupInsert_of_mem (g : Grouped) (d k : Int) (v : ℚ)
    (h : d ∈ g.map Prod.fst) :
    (groupInsert g d k v).map Prod.fst = g.map Prod.fst := by
  induction g with
  | nil => simp at h
  | cons dm rest ih =>
    obtain ⟨d₀, m⟩ := dm
    by_cases hd : d₀ = d
    · rw [groupInsert, if_pos hd]
      simp
    · rw [groupInsert, if_neg hd]
      simp only [List.map_cons] at h ⊢
      rcases List.mem_cons.mp h with h1 | h1
      · exact absurd h1.symm hd
      · rw [ih h1]

theorem keys_groupInsert_of_not_mem (g : Grouped) (d k : Int) (v : ℚ)
    (h : d ∉ g.map Prod.fst) :
    (groupInsert g d k v).map Prod.fst = g.map Prod.fst ++ [d] := by
  induction g with
  | nil => simp [groupInsert]
  | cons dm rest ih =>
    obtain ⟨d₀, m⟩ := dm
    simp only [List.map_cons, List.mem_cons] at h
    push_neg at h
    rw [groupInsert, if_neg (fun hd => h.1 hd.symm)]
    simp only [List.map_cons, List.cons_append]
    rw [ih h.2]

theorem nodup_keys_groupInsert (g : Grouped) (d k : Int) (v : ℚ)
    (h : (g.map Prod.fst).Nodup) : ((groupInsert g d k v).map Prod.fst).Nodup := by
  by_cases hd : d ∈ g.map Prod.fst
  · rw [keys_groupInsert_of_mem g d k v hd]
    exact h
  · rw [keys_groupInsert_of_not_mem g d k v hd]
    simp [List.nodup_append, h, hd]

theorem nodup_keys_groupPoints (pts : List PricePoint) :
    ((groupPoints pts).map Prod.fst).Nodup := by
  have main : ∀ g : Grouped, (g.map Prod.fst).Nodup →
      ((pts.foldl groupStep g).map Prod.fst).Nodup := by
    induction pts with
    | nil => exact fun g h => h
    | cons p rest ih =>
      intro g h
      rw [List.foldl_cons]
      exact ih _ (nodup_keys_groupInsert _ _ _ _ h)
  exact main [] (by simp)

theorem timestamp_buildRow (ss : List Sneaker) (d : Int) (m : List (Int × ℚ)) :
    (buildRow ss d m).timestamp = d := rfl

/-- C5: for every sample list and entity list, the bucket_date values of the
output of transformPriceData (buildChartRows) are strictly increasing, hence
pairwise distinct. -/
theorem transformPriceData_strict_chronological (pts : List PricePoint) (ss : List Sneaker) :
    (transformPriceData pts ss).Pairwise (fun a b => a.timestamp < b.timestamp) := by
  rw [transformPriceData]
  by_cases h : pts.length = 0 ∨ ss.length = 0
  · rw [if_pos h]
    exact List.Pairwise.nil
  · rw [if_neg h]
    have hsorted := List.sorted_insertionSort rowLE
      ((groupPoints pts).map (fun dm => buildRow ss dm.1 dm.2))
    have hperm := List.perm_insertionSort rowLE
      ((groupPoints pts).map (fun dm => buildRow ss dm.1 dm.2))
    have hkeys : ((groupPoints pts).map (fun dm => buildRow ss dm.1 dm.2)).map
        ChartData.timestamp = (groupPoints pts).map Prod.fst := by
      rw [List.map_map]
      rfl
    have hnodup : (((groupPoints pts).map (fun dm => buildRow ss dm.1 dm.2)).map
        ChartData.timestamp).Nodup := by
      rw [hkeys]
      exact nodup_keys_groupPoints pts
    have hnodup2 := ((hperm.map ChartData.timestamp).nodup_iff).mpr hnodup
    have hne : (List.insertionSort rowLE
        ((groupPoints pts).map (fun dm => buildRow ss dm.1 dm.2))).Pairwise
        (fun a b => a.timestamp ≠ b.timestamp) := List.pairwise_map.mp hnodup2
    exact (hsorted.and hne).imp (fun hab => lt_of_le_of_ne hab.1 hab.2)

/-- C1 (amended): within one entity/day bucket, the sample occurring last in
input order overwrites the earlier ones, so the bucket value equals the price
of the last same-bucket sample in input order (which is the latest-timestamp
sample whenever the input is chronologically ordered); in particular, two
same-day samples for one entity with prices 100 then 110 (110 observed later
and listed later) leave the bucket at 110. -/
theorem groupPoints_last_write_wins :
    (∀ (pts : List PricePoint) (d sid : Int),
        bucketPrice (groupPoints pts) d sid = lastSamplePrice pts d sid) ∧
      transformPriceData [⟨3600000, 100, 1⟩, ⟨7200000, 110, 1⟩] [snA] =
        [⟨0, [("A - undefined", 110)]⟩] := by
  constructor
  · intro pts d sid
    rw [groupPoints, bucketPrice_foldl]
    rw [show bucketPrice [] d sid = none from rfl, Option.or_none]
  · decide

/-- C1 counterexample: two samples of entity 1 on the same UTC day, the
sample with the later timestamp (7200000 ms, price 110) arriving first in the
list and the earlier-timestamped one (3600000 ms, price 100) arriving last.
The bucket shows 100, the price of the last sample in input order, not the
price 110 of the sample with the latest timestamp of that day. -/
theorem transformPriceData_not_latest_timestamp :
    transformPriceData [⟨7200000, 110, 1⟩, ⟨3600000, 100, 1⟩] [snA] =
        [⟨0, [("A - undefined", 100)]⟩] ∧
      normalizeTimestamp 7200000 = normalizeTimestamp 3600000 ∧
      (3600000 : Int) < 7200000 ∧ (100 : ℚ) ≠ 110 :=
  ⟨by decide, by decide, by decide, by decide⟩

/-! Fold characterisations of Math.min / Math.max over a spread list. -/

theorem foldl_min_mem (a : ℚ) (l : List ℚ) : l.foldl min a ∈ a :: l := by
  induction l generalizing a with
  | nil => exact List.mem_singleton.mpr rfl
  | cons b rest ih =>
    rw [List.foldl_cons]
    rcases List.mem_cons.mp (ih (min a b)) with h | h
    · rw [h]
      rcases min_choice a b with h1 | h1 <;> rw [h1]
      · exact List.mem_cons_self _ _
      · exact List.mem_cons_of_mem _ (List.mem_cons_self _ _)
    · exact List.mem_cons_of_mem _ (List.mem_cons_of_mem _ h)

theorem foldl_min_le (a : ℚ) (l : List ℚ) : ∀ x ∈ a :: l, l.foldl min a ≤ x := by
  induction l generalizing a with
  | nil =>
    intro x hx
    rw [List.mem_singleton.mp hx]
    simp
  | cons b rest ih =>
    intro x hx
    rw [List.foldl_cons]
    rcases List.mem_cons.mp hx with h | h
    · rw [h]
      exact le_trans (ih (min a b) (min a b) (List.mem_cons_self _ _)) (min_le_left a b)
    · rcases List.mem_cons.mp h with h1 | h1
      · rw [h1]
        exact le_trans (ih (min a b) (min a b) (List.mem_cons_self _ _)) (min_le_right a b)
      · exact ih (min a b) x (List.mem_cons_of_mem _ h1)

theorem foldl_max_mem (a : ℚ) (l : List ℚ) : l.foldl max a ∈ a :: l := by
  induction l generalizing a with
  | nil => exact List.mem_singleton.mpr rfl
  | cons b rest ih =>
    rw [List.foldl_cons]
    rcases List.mem_cons.mp (ih (max a b)) with h | h
    · rw [h]
      rcases max_choice a b with h1 | h1 <;> rw [h1]
      · exact List.mem_cons_self _ _
      · exact List.mem_cons_of_mem _ (List.mem_cons_self _ _)
    · exact List.mem_cons_of_mem _ (List.mem_cons_of_mem _ h)

theorem le_foldl_max (a : ℚ) (l : List ℚ) : ∀ x ∈ a :: l, x ≤ l.foldl max a := by
  induction l generalizing a with
  | nil =>
    intro x hx
    rw [List.mem_singleton.mp hx]
    simp
  | cons b rest ih =>
    intro x hx
    rw [List.foldl_cons]
    rcases List.mem_cons.mp hx with h | h
    · rw [h]
      exact le_trans (le_max_left a b) (ih (max a b) (max a b) (List.mem_cons_self _ _))
    · rcases List.mem_cons.mp h with h1 | h1
      · rw [h1]
        exact le_trans (le_max_right a b) (ih (max a b) (max a b) (List.mem_cons_self _ _))
      · exact ih (max a b) x (List.mem_cons_of_mem _ h1)

/-- The prices of the samples filtered to the given entity id, in input
order. -/
def filteredPrices (s : Sneaker) (pts : List PricePoint) : List ℚ :=
  (pts.filter (fun p => p.sneaker_id == s.sneaker_id)).map (fun p => p.price)

/-- The contract of computeStats on a nonempty filtered sample list, as the
spec states it: current_price is the price of the sample last in input order,
min_price and max_price are attained elementwise bounds over the filtered
prices, avg_price is their arithmetic mean, price_change compares the current
price to the retail price, and price_change_percent is the relative change
times 100. -/
def statsContract (s : Sneaker) (pts : List PricePoint) : Prop :=
  (calculateStats s pts).current_price = (filteredPrices s pts).getLastD 0 ∧
  (calculateStats s pts).min_price ∈ filteredPrices s pts ∧
  (∀ x ∈ filteredPrices s pts, (calculateStats s pts).min_price ≤ x) ∧
  (calculateStats s pts).max_price ∈ filteredPrices s pts ∧
  (∀ x ∈ filteredPrices s pts, x ≤ (calculateStats s pts).max_price) ∧
  (calculateStats s pts).avg_price =
    (filteredPrices s pts).sum / ((filteredPrices s pts).length : ℚ) ∧
  (calculateStats s pts).price_change = (calculateStats s pts).current_price - s.price ∧
  (calculateStats s pts).price_change_percent =
    ((calculateStats s pts).current_price - s.price) / s.price * 100 ∧
  (calculateStats s pts).retail_price = s.price

theorem calculateStats_filter_cons (s : Sneaker) (pts : List PricePoint)
    (q : PricePoint) (qs : List PricePoint)
    (hf : pts.filter (fun p => p.sneaker_id == s.sneaker_id) = q :: qs) :
    calculateStats s pts =
      { sneaker_id := s.sneaker_id
        name := seriesKey s
        sku := s.sku
        current_price := ((q :: qs).map (fun p => p.price)).getLastD 0
        retail_price := s.price
        price_change := ((q :: qs).map (fun p => p.price)).getLastD 0 - s.price
        price_change_percent :=
          calculatePriceChange s.price (((q :: qs).map (fun p => p.price)).getLastD 0)
        min_price := (qs.map (fun p => p.price)).foldl min q.price
        max_price := (qs.map (fun p => p.price)).foldl max q.price
        avg_price := ((q :: qs).map (fun p => p.price)).foldl (· + ·) 0 /
          ((((q :: qs).map (fun p => p.price)).length : ℕ) : ℚ)
        release_date := jsOrString s.release_date "Unknown"
        available_sizes := jsOrString s.available_sizes "N/A"
        ratings := jsOrNum s.ratings 0 } := by
  unfold calculateStats
  rw [hf]

/-- C2: for every entity and every sample list whose samples filtered to the
entity id are nonempty, calculateStats (computeStats) satisfies the stats
contract: current = last filtered price in input order, min/max are the
elementwise extrema, avg is the arithmetic mean, change = current - retail,
percent = relative change times 100. -/
theorem calculateStats_nonempty (s : Sneaker) (pts : List PricePoint)
    (h : pts.filter (fun p => p.sneaker_id == s.sneaker_id) ≠ []) :
    statsContract s pts := by
  rcases hf : pts.filter (fun p => p.sneaker_id == s.sneaker_id) with _ | ⟨q, qs⟩
  · exact absurd hf h
  · have hl : filteredPrices s pts = q.price :: (qs.map (fun p => p.price)) := by
      rw [filteredPrices, hf, List.map_cons]
    unfold statsContract
    rw [calculateStats_filter_cons s pts q qs hf, hl]
    refine ⟨rfl, foldl_min_mem q.price (qs.map (fun p => p.price)),
      foldl_min_le q.price (qs.map (fun p => p.price)),
      foldl_max_mem q.price (qs.map (fun p => p.price)),
      le_foldl_max q.price (qs.map (fun p => p.price)), ?_, rfl, rfl, rfl⟩
    rw [List.sum_eq_foldl]
    rfl

/-- Witness for C2 at the concrete example of the spec: samples with prices
100, 120, 140 for an entity with retail price 100. -/
theorem calculateStats_nonempty_witness :
    (([⟨0, 100, 1⟩, ⟨1, 120, 1⟩, ⟨2, 140, 1⟩] : List PricePoint).filter
        (fun p => p.sneaker_id == snA.sneaker_id) ≠ []) ∧
      statsContract snA [⟨0, 100, 1⟩, ⟨1, 120, 1⟩, ⟨2, 140, 1⟩] ∧
      ((calculateStats snA [⟨0, 100, 1⟩, ⟨1, 120, 1⟩, ⟨2, 140, 1⟩]).avg_price = 120 ∧
        (calculateStats snA [⟨0, 100, 1⟩, ⟨1, 120, 1⟩, ⟨2, 140, 1⟩]).min_price = 100 ∧
        (calculateStats snA [⟨0, 100, 1⟩, ⟨1, 120, 1⟩, ⟨2, 140, 1⟩]).max_price = 140 ∧
        (calculateStats snA [⟨0, 100, 1⟩, ⟨1, 120, 1⟩, ⟨2, 140, 1⟩]).current_price = 140 ∧
        (calculateStats snA [⟨0, 100, 1⟩, ⟨1, 120, 1⟩, ⟨2, 140, 1⟩]).price_change = 40 ∧
        (calculateStats snA [⟨0, 100, 1⟩, ⟨1, 120, 1⟩, ⟨2, 140, 1⟩]).price_change_percent
          = 40) :=
  ⟨by decide, calculateStats_nonempty snA _ (by decide), by
    refine ⟨?_, ?_, ?_, ?_, ?_, ?_⟩ <;>
      · simp only [calculateStats, snA, List.filter, calculatePriceChange]
        norm_num⟩

/-- C3: for every entity whose filtered sample list is empty, calculateStats
(computeStats) falls back to the retail price for current/retail/min/max/avg
and to 0 for both change fields. -/
theorem calculateStats_empty (s : Sneaker) (pts : List PricePoint)
    (h : pts.filter (fun p => p.sneaker_id == s.sneaker_id) = []) :
    (calculateStats s pts).current_price = s.price ∧
      (calculateStats s pts).retail_price = s.price ∧
      (calculateStats s pts).min_price = s.price ∧
      (calculateStats s pts).max_price = s.price ∧
      (calculateStats s pts).avg_price = s.price ∧
      (calculateStats s pts).price_change = 0 ∧
      (calculateStats s pts).price_change_percent = 0 := by
  unfold calculateStats
  rw [h]
  exact ⟨rfl, rfl, rfl, rfl, rfl, rfl, rfl⟩

/-- Witness for C3 at the concrete example of the spec: an entity with retail
price 120 and no samples. -/
theorem calculateStats_empty_witness :
    (([] : List PricePoint).filter (fun p => p.sneaker_id == snB.sneaker_id) = []) ∧
      ((calculateStats snB []).current_price = snB.price ∧
        (calculateStats snB []).retail_price = snB.price ∧
        (calculateStats snB []).min_price = snB.price ∧
        (calculateStats snB []).max_price = snB.price ∧
        (calculateStats snB []).avg_price = snB.price ∧
        (calculateStats snB []).price_change = 0 ∧
        (calculateStats snB []).price_change_percent = 0) ∧
      snB.price = 120 :=
  ⟨rfl, calculateStats_empty snB [] rfl, by decide⟩

/-! Provenance of the series keys of the output rows. -/

theorem buildRow_entries_key (ss : List Sneaker) (d : Int) (m : List (Int × ℚ))
    (kv : String × ℚ) (hkv : kv ∈ (buildRow ss d m).entries) :
    ∃ s ∈ ss, kv.1 = seriesKey s := by
  have main : ∀ (m : List (Int × ℚ)) (es : List (String × ℚ)),
      (∀ kv ∈ es, ∃ s ∈ ss, kv.1 = seriesKey s) →
      ∀ kv ∈ m.foldl
          (fun es kv =>
            match ss.find? (fun s => s.sneaker_id == kv.1) with
            | some s => mapSet es (seriesKey s) kv.2
            | none => es)
          es,
        ∃ s ∈ ss, kv.1 = seriesKey s := by
    intro m
    induction m with
    | nil =>
      intro es hes kv hkv
      exact hes kv hkv
    | cons a rest ih =>
      intro es hes kv hkv
      rw [List.foldl_cons] at hkv
      refine ih _ ?_ kv hkv
      intro kv' hkv'
      cases hfind : ss.find? (fun s => s.sneaker_id == a.1) with
      | none =>
        rw [hfind] at hkv'
        exact hes kv' hkv'
      | some s =>
        rw [hfind] at hkv'
        rcases mem_mapSet es (seriesKey s) a.2 kv' hkv' with h1 | h1
        · exact hes kv' h1
        · exact ⟨s, List.mem_of_find?_eq_some hfind, h1⟩
  exact main m [] (fun kv h => absurd h (List.not_mem_nil kv)) kv hkv

/-- C6: every series key of every output row of transformPriceData
(buildChartRows) is the series label of a sneaker present in the supplied
entity list; hence a sample whose entity id is absent contributes no key to
any row, and no error can arise (the function is total). -/
theorem transformPriceData_keys_from_entities (pts : List PricePoint) (ss : List Sneaker)
    (r : ChartData) (hr : r ∈ transformPriceData pts ss)
    (kv : String × ℚ) (hkv : kv ∈ r.entries) :
    ∃ s ∈ ss, kv.1 = seriesKey s := by
  rw [transformPriceData] at hr
  by_cases h : pts.length = 0 ∨ ss.length = 0
  · rw [if_pos h] at hr
    exact absurd hr (List.not_mem_nil r)
  · rw [if_neg h] at hr
    have hr2 := (List.perm_insertionSort rowLE
      ((groupPoints pts).map (fun dm => buildRow ss dm.1 dm.2))).mem_iff.mp hr
    rcases List.mem_map.mp hr2 with ⟨dm, hdm, hrow⟩
    rw [← hrow] at hkv
    exact buildRow_entries_key ss dm.1 dm.2 kv hkv

/-- Witness for C6: a sample for the unknown entity id 99 next to a sample
for the known id 1, with entities {1, 2} supplied; the key of the produced
row is the series label of entity 1, and the lone id-99 sample produces a
row with no keys at all rather than an error. -/
theorem transformPriceData_keys_from_entities_witness :
    (⟨0, [("A - undefined", 100)]⟩ : ChartData) ∈
        transformPriceData [⟨0, 50, 99⟩, ⟨0, 100, 1⟩] [snA, snB] ∧
      ("A - undefined", (100 : ℚ)) ∈
        (⟨0, [("A - undefined", 100)]⟩ : ChartData).entries ∧
      (∃ s ∈ [snA, snB], "A - undefined" = seriesKey s) ∧
      transformPriceData [⟨0, 50, 99⟩] [snA, snB] = [⟨0, []⟩] :=
  ⟨by decide, by decide,
    transformPriceData_keys_from_entities [⟨0, 50, 99⟩, ⟨0, 100, 1⟩] [snA, snB]
      ⟨0, [("A - undefined", 100)]⟩ (by decide) ("A - undefined", 100) (by decide),
    by decide⟩

/-- C7: transformPriceData (buildChartRows) returns the empty list whenever
the sample list or the entity list is empty; no buckets are synthesized. -/
theorem transformPriceData_empty_inputs (pts : List PricePoint) (ss : List Sneaker) :
    transformPriceData [] ss = [] ∧ transformPriceData pts [] = [] := by
  constructor <;> simp [transformPriceData]

/-- C8: normalizeTimestamp truncates an instant to the UTC midnight of its
day: the result is the unique multiple of 86400000 ms lying no more than one
day before the instant, two instants normalize equally exactly when they fall
in the same UTC day, and the two concrete samples of the spec
(2025-01-01T02:00:00Z and 2025-01-01T23:00:00Z, for one entity) collapse into
the single bucket 2025-01-01T00:00:00Z. -/
theorem normalizeTimestamp_day_bucket :
    (∀ t : Int, normalizeTimestamp t % msPerDay = 0 ∧
        normalizeTimestamp t ≤ t ∧ t < normalizeTimestamp t + msPerDay) ∧
      (∀ t₁ t₂ : Int,
        normalizeTimestamp t₁ = normalizeTimestamp t₂ ↔
          Int.fdiv t₁ msPerDay = Int.fdiv t₂ msPerDay) ∧
      normalizeTimestamp 1735696800000 = 1735689600000 ∧
      normalizeTimestamp 1735772400000 = 1735689600000 ∧
      transformPriceData [⟨1735696800000, 100, 1⟩, ⟨1735772400000, 110, 1⟩] [snA] =
        [⟨1735689600000, [("A - undefined", 110)]⟩] := by
  refine ⟨?_, ?_, by decide, by decide, by decide⟩
  · intro t
    unfold normalizeTimestamp msPerDay
    rw [Int.fdiv_eq_ediv t (by norm_num)]
    have h1 := Int.ediv_add_emod t 86400000
    have h2 : 0 ≤ t % 86400000 := Int.emod_nonneg t (by norm_num)
    have h3 : t % 86400000 < 86400000 := Int.emod_lt_of_pos t (by norm_num)
    refine ⟨Int.mul_emod_right _ _, by omega, by omega⟩
  · intro t₁ t₂
    unfold normalizeTimestamp msPerDay
    constructor
    · intro h
      omega
    · intro h
      rw [h]

/-- C9: a day all of whose samples reference entity ids absent from the
(non-empty) entity list still yields an output row carrying only the
timestamp and no series keys; such empty rows are emitted, not filtered out
(here next to a normal row of the following day). -/
theorem transformPriceData_emits_empty_row :
    transformPriceData [⟨0, 50, 99⟩, ⟨86400000, 70, 1⟩] [snA] =
      [⟨0, []⟩, ⟨86400000, [("A - undefined", 70)]⟩] := by
  decide

/-- C10: for an entity whose colorway is absent, the series key used by
transformPriceData (via buildRow) and the name field produced by
calculateStats are both the name followed by the literal string
" - undefined", coming from the template-literal rendering of the undefined
colorway. -/
theorem seriesKey_undefined_colorway (s : Sneaker) (pts : List PricePoint)
    (d : Int) (v : ℚ) (h : s.colorway = none) :
    seriesKey s = s.name ++ " - undefined" ∧
      (calculateStats s pts).name = s.name ++ " - undefined" ∧
      (buildRow [s] d [(s.sneaker_id, v)]).entries = [(s.name ++ " - undefined", v)] := by
  have hk : seriesKey s = s.name ++ " - undefined" := by
    rw [seriesKey, h]
    rw [show jsUndefinedString none = "undefined" from rfl, String.append_assoc]
    rfl
  refine ⟨hk, ?_, ?_⟩
  · rcases hf : pts.filter (fun p => p.sneaker_id == s.sneaker_id) with _ | ⟨q, qs⟩
    · unfold calculateStats
      rw [hf]
      exact hk
    · unfold calculateStats
      rw [hf]
      exact hk
  · rw [buildRow]
    simp only [List.foldl_cons, List.foldl_nil, List.find?_cons, beq_self_eq_true]
    rw [show mapSet ([] : List (String × ℚ)) (seriesKey s) v = [(seriesKey s, v)] from rfl,
      hk]

/-- Witness for C10: the entity snA has no colorway; its series key and stats
name are "A - undefined". -/
theorem seriesKey_undefined_colorway_witness :
    snA.colorway = none ∧
      (seriesKey snA = snA.name ++ " - undefined" ∧
        (calculateStats snA []).name = snA.name ++ " - undefined" ∧
        (buildRow [snA] 0 [(snA.sneaker_id, 100)]).entries =
          [(snA.name ++ " - undefined", 100)]) :=
  ⟨rfl, seriesKey_undefined_colorway snA [] 0 100 rfl⟩

/-- C4, at the failing input: with retail price 0 and a last sample price of
100, calculateStats feeds current price 100 into calculatePriceChange, whose
expression ((100 - 0) / 0) * 100 evaluates under the IEEE rules to positive
Infinity — a silent infinity, not the NaN or undefined sentinel the spec
mandates for the ZeroRetailPrice error condition. -/
theorem calculatePriceChangeJS_zero_retail :
    calculatePriceChangeJS (JSNum.num 0) (JSNum.num 100) = JSNum.posInf ∧
      JSNum.posInf ≠ JSNum.nan ∧
      (calculateStats ⟨1, "Z", "SKU-Z", none, none, none, 0, none⟩
          [⟨0, 100, 1⟩]).current_price = 100 := by
  refine ⟨?_, by decide, by decide⟩
  simp [calculatePriceChangeJS, jsSub, jsDiv, jsMul]

end Stride
